import Mathlib

/-!
Verification development for the DreamWalkers (DreamTracker) client.

The embedding models the client-side core of the repository: the entry
filter/sort view, the statistics aggregator and its derived suggestion, the
chart windowing, the sort-toggle state transition, the client-side form
validation, the JSON data export, and the display-name fallback.

Modelling conventions:
- JavaScript numbers are modelled as rationals (ℚ); every numeric value the
  code manipulates here (slider steps of 0.5, integer counts, one-decimal
  averages) is exactly representable, so rational arithmetic coincides with
  the source arithmetic on the stated ranges.
- Timestamps (`created_at`, an ISO string parsed by the code with
  `new Date(...).getTime()`) are modelled by their epoch-millisecond value
  as an integer.
- Strings are modelled by Lean `String`; `toLowerCase` is modelled by
  mapping `Char.toLower` over the characters (ASCII case folding).
- `Array.prototype.sort` is modelled by `List.mergeSort` (a stable sort)
  run with the "may precede" relation of the source comparator, i.e.
  `le a b ↔ comparator a b ≤ 0`.
-/

/-- One journal record, after `lib/supabase.ts` (`DreamEntry`) and the
`dream_entries` table of `supabase-queries.sql`. -/
structure DreamEntry where
  id : String
  user_id : String
  title : String
  content : String
  sleep_hours : ℚ
  caffeine_intake : ℚ
  sleep_quality : ℚ
  mood : Option String
  stress_level : ℚ
  created_at : Int
deriving DecidableEq, Repr

/-- ASCII model of JavaScript `String.prototype.toLowerCase`. -/
def lowerChars (l : List Char) : List Char := l.map Char.toLower

/-- Model of JavaScript `hay.includes(pat)`: `pat` occurs as a contiguous
substring of `hay` (the empty pattern always occurs). -/
def charsIncludes (pat : List Char) : List Char → Bool
  | [] => List.isPrefixOf pat []
  | c :: cs => List.isPrefixOf pat (c :: cs) || charsIncludes pat cs

/-- The filter predicate of `filteredAndSortedEntries` (AnalyticsPage):
`entry.title.toLowerCase().includes(q.toLowerCase()) ||
 entry.content.toLowerCase().includes(q.toLowerCase())`. -/
def matchesQuery (searchQuery : String) (e : DreamEntry) : Bool :=
  charsIncludes (lowerChars searchQuery.data) (lowerChars e.title.data) ||
  charsIncludes (lowerChars searchQuery.data) (lowerChars e.content.data)

/-- The three sort keys offered by the analytics page. -/
inductive SortKey where
  | created_at
  | sleep_quality
  | sleep_hours
deriving DecidableEq, Repr

/-- Sort direction. -/
inductive SortOrder where
  | asc
  | desc
deriving DecidableEq, Repr

/-- The sort value the comparator reads for a key: `created_at` compares by
parsed timestamp, the other keys compare the numeric field. -/
def keyVal (sortBy : SortKey) (e : DreamEntry) : ℚ :=
  match sortBy with
  | .created_at => (e.created_at : ℚ)
  | .sleep_quality => e.sleep_quality
  | .sleep_hours => e.sleep_hours

/-- "May precede" relation of the source comparator
`asc: aVal > bVal ? 1 : -1` / `desc: aVal < bVal ? 1 : -1`:
`a` may precede `b` exactly when the comparator does not return 1. -/
def entryLe (sortBy : SortKey) (sortOrder : SortOrder) (a b : DreamEntry) : Bool :=
  match sortOrder with
  | .asc => !(decide (keyVal sortBy b < keyVal sortBy a))
  | .desc => !(decide (keyVal sortBy a < keyVal sortBy b))

/-- `filteredAndSortedEntries` (AnalyticsPage): filter by the search query,
then sort by the selected key and direction. -/
def filteredAndSortedEntries (entries : List DreamEntry) (searchQuery : String)
    (sortBy : SortKey) (sortOrder : SortOrder) : List DreamEntry :=
  (entries.filter (fun e => matchesQuery searchQuery e)).mergeSort
    (entryLe sortBy sortOrder)

/-- The sort-related state of the analytics page. -/
structure SortState where
  sortBy : SortKey
  sortOrder : SortOrder
deriving DecidableEq, Repr

/-- `toggleSort` (AnalyticsPage): same key flips the direction, a new key is
selected with descending direction. -/
def toggleSort (field : SortKey) (s : SortState) : SortState :=
  if s.sortBy = field then
    { s with sortOrder := if s.sortOrder = .asc then .desc else .asc }
  else
    { sortBy := field, sortOrder := .desc }

section SubstringLemmas

lemma isPrefixOf_eq_true_iff (pat hay : List Char) :
    List.isPrefixOf pat hay = true ↔ ∃ r, hay = pat ++ r := by
  induction pat generalizing hay with
  | nil =>
    simp [List.isPrefixOf]
  | cons p ps ih =>
    cases hay with
    | nil =>
      simp [List.isPrefixOf]
    | cons c cs =>
      simp only [List.isPrefixOf, Bool.and_eq_true, beq_iff_eq, ih, List.cons_append,
        List.cons.injEq]
      constructor
      · rintro ⟨hpc, r, hr⟩
        exact ⟨r, hpc.symm, hr⟩
      · rintro ⟨r, hcp, hr⟩
        exact ⟨hcp.symm, r, hr⟩

lemma charsIncludes_eq_true_iff (pat hay : List Char) :
    charsIncludes pat hay = true ↔ ∃ l r, hay = l ++ pat ++ r := by
  induction hay with
  | nil =>
    simp only [charsIncludes, isPrefixOf_eq_true_iff]
    constructor
    · rintro ⟨r, hr⟩
      exact ⟨[], r, by simpa using hr⟩
    · rintro ⟨l, r, hr⟩
      have h1 : l ++ pat = [] ∧ r = [] := List.append_eq_nil.mp hr.symm
      have h2 : l = [] ∧ pat = [] := List.append_eq_nil.mp h1.1
      exact ⟨[], by simp [h2.2]⟩
  | cons c cs ih =>
    simp only [charsIncludes, Bool.or_eq_true, isPrefixOf_eq_true_iff, ih]
    constructor
    · rintro (⟨r, hr⟩ | ⟨l, r, hr⟩)
      · exact ⟨[], r, by simpa using hr⟩
      · exact ⟨c :: l, r, by simp [hr]⟩
    · rintro ⟨l, r, hr⟩
      cases l with
      | nil =>
        exact Or.inl ⟨r, by simpa using hr⟩
      | cons x xs =>
        refine Or.inr ⟨xs, r, ?_⟩
        have := hr
        simp only [List.cons_append, List.cons.injEq] at this
        exact this.2

lemma charsIncludes_nil (hay : List Char) : charsIncludes [] hay = true := by
  cases hay <;> simp [charsIncludes, List.isPrefixOf]

lemma matchesQuery_empty (e : DreamEntry) : matchesQuery "" e = true := by
  simp [matchesQuery, lowerChars, charsIncludes_nil]

end SubstringLemmas

/-- C1: for every entry list and query, the view contains exactly the input
entries whose lowercased title or content contains the lowercased query as a
contiguous substring, and the empty query passes every entry through the
filter. -/
theorem filteredAndSortedEntries_filter_correct (entries : List DreamEntry)
    (searchQuery : String) (sortBy : SortKey) (sortOrder : SortOrder) :
    (∀ e, e ∈ filteredAndSortedEntries entries searchQuery sortBy sortOrder ↔
      (e ∈ entries ∧
        ((∃ l r, lowerChars e.title.data =
            l ++ lowerChars searchQuery.data ++ r) ∨
         (∃ l r, lowerChars e.content.data =
            l ++ lowerChars searchQuery.data ++ r)))) ∧
    entries.filter (fun e => matchesQuery "" e) = entries := by
  constructor
  · intro e
    have hperm :
        (filteredAndSortedEntries entries searchQuery sortBy sortOrder).Perm
          (entries.filter (fun e => matchesQuery searchQuery e)) :=
      List.mergeSort_perm _ _
    rw [hperm.mem_iff, List.mem_filter]
    simp only [matchesQuery, Bool.or_eq_true, charsIncludes_eq_true_iff]
  · exact List.filter_eq_self.mpr (fun a _ => matchesQuery_empty a)

/-- C5: with the empty query the view is a permutation of the input, of
equal length — no entries lost or duplicated. -/
theorem filteredAndSortedEntries_empty_query_perm (entries : List DreamEntry)
    (sortBy : SortKey) (sortOrder : SortOrder) :
    (filteredAndSortedEntries entries "" sortBy sortOrder).Perm entries ∧
    (filteredAndSortedEntries entries "" sortBy sortOrder).length =
      entries.length := by
  have hfilter : entries.filter (fun e => matchesQuery "" e) = entries :=
    List.filter_eq_self.mpr (fun a _ => matchesQuery_empty a)
  have hperm : (filteredAndSortedEntries entries "" sortBy sortOrder).Perm entries := by
    unfold filteredAndSortedEntries
    rw [hfilter]
    exact List.mergeSort_perm _ _
  exact ⟨hperm, hperm.length_eq⟩

/-- C6: toggling with the active key flips the direction and keeps the key,
so toggling twice restores the state and hence the displayed order; toggling
with a different key selects it with descending direction. -/
theorem toggleSort_spec (s : SortState) (k : SortKey) :
    (s.sortBy = k →
      toggleSort k s =
        ⟨s.sortBy, if s.sortOrder = .asc then .desc else .asc⟩ ∧
      toggleSort k (toggleSort k s) = s ∧
      ∀ (entries : List DreamEntry) (q : String),
        filteredAndSortedEntries entries q
            (toggleSort k (toggleSort k s)).sortBy
            (toggleSort k (toggleSort k s)).sortOrder =
          filteredAndSortedEntries entries q s.sortBy s.sortOrder) ∧
    (s.sortBy ≠ k → toggleSort k s = ⟨k, .desc⟩) := by
  obtain ⟨sb, so⟩ := s
  constructor
  · intro h
    simp only at h
    subst h
    cases so <;> simp [toggleSort]
  · intro h
    simp only at h
    simp [toggleSort, h]

/-- Witness for C6: on state (created_at, desc), toggling the active key
flips to ascending, and toggling twice restores the state. -/
theorem toggleSort_spec_witness :
    toggleSort SortKey.created_at ⟨SortKey.created_at, SortOrder.desc⟩ =
      ⟨SortKey.created_at, SortOrder.asc⟩ ∧
    toggleSort SortKey.created_at
        (toggleSort SortKey.created_at ⟨SortKey.created_at, SortOrder.desc⟩) =
      ⟨SortKey.created_at, SortOrder.desc⟩ := by
  have h := (toggleSort_spec ⟨SortKey.created_at, SortOrder.desc⟩
    SortKey.created_at).1 rfl
  exact ⟨h.1, h.2.1⟩

/-- The summary record built by `stats` (AnalyticsPage): the four displayed
averages (each already passed through `toFixed(1)`) and the entry count. -/
structure Stats where
  avgQuality : ℚ
  avgSleep : ℚ
  avgCaffeine : ℚ
  avgStress : ℚ
  total : ℕ
deriving DecidableEq, Repr

/-- Model of `x.toFixed(1)` (kept as a rational): round to the nearest
multiple of 1/10. JavaScript breaks ties away from zero; `round` breaks
them upward, which agrees on the nonnegative values used here. -/
def toFixed1 (x : ℚ) : ℚ := (round (x * 10) : ℚ) / 10

/-- `stats` (AnalyticsPage): `null` for an empty list, otherwise the four
`reduce`-computed averages passed through `toFixed(1)`, plus the count. -/
def stats (entries : List DreamEntry) : Option Stats :=
  if entries.length = 0 then none
  else
    let n : ℚ := (entries.length : ℚ)
    let avgQuality := entries.foldl (fun sum e => sum + e.sleep_quality) 0 / n
    let avgSleep := entries.foldl (fun sum e => sum + e.sleep_hours) 0 / n
    let avgCaffeine := entries.foldl (fun sum e => sum + e.caffeine_intake) 0 / n
    let avgStress := entries.foldl (fun sum e => sum + e.stress_level) 0 / n
    some { avgQuality := toFixed1 avgQuality, avgSleep := toFixed1 avgSleep,
           avgCaffeine := toFixed1 avgCaffeine, avgStress := toFixed1 avgStress,
           total := entries.length }

def msgSleep : String := "Try to get more sleep - aim for 7-9 hours per night."

def msgCaffeine : String := "Consider reducing caffeine intake, especially in the afternoon."

def msgStress : String := "High stress levels detected. Try relaxation techniques before bed."

def msgQuality : String := "Your sleep quality could improve. Try maintaining a consistent sleep schedule."

def msgAllGood : String := "Great job! Your sleep patterns look healthy. Keep it up!"

def msgStart : String := "Start tracking your dreams to get personalized suggestions!"

/-- `getSuggestion` (AnalyticsPage): reads the displayed averages back with
`parseFloat`, pushes the triggered messages in the source's fixed order, and
joins them with a single space. -/
def getSuggestion (entries : List DreamEntry) : String :=
  match stats entries with
  | none => msgStart
  | some st =>
    let suggestions : List String :=
      (if st.avgSleep < 7 then [msgSleep] else []) ++
      (if st.avgCaffeine > 2 then [msgCaffeine] else []) ++
      (if st.avgStress > 6 then [msgStress] else []) ++
      (if st.avgQuality < 6 then [msgQuality] else [])
    if suggestions.length = 0 then msgAllGood
    else String.intercalate " " suggestions

lemma foldl_add_eq (f : DreamEntry → ℚ) (a : ℚ) (l : List DreamEntry) :
    l.foldl (fun sum e => sum + f e) a = a + (l.map f).sum := by
  induction l generalizing a with
  | nil => simp
  | cons e t ih =>
    simp only [List.foldl_cons, List.map_cons, List.sum_cons, ih, add_assoc]

lemma stats_eq (entries : List DreamEntry) (h : entries ≠ []) :
    stats entries = some {
      avgQuality :=
        toFixed1 ((entries.map (·.sleep_quality)).sum / (entries.length : ℚ)),
      avgSleep :=
        toFixed1 ((entries.map (·.sleep_hours)).sum / (entries.length : ℚ)),
      avgCaffeine :=
        toFixed1 ((entries.map (·.caffeine_intake)).sum / (entries.length : ℚ)),
      avgStress :=
        toFixed1 ((entries.map (·.stress_level)).sum / (entries.length : ℚ)),
      total := entries.length } := by
  have hlen : entries.length ≠ 0 := fun hl => h (List.length_eq_zero.mp hl)
  simp [stats, hlen, foldl_add_eq]

/-- C2: `stats` is `none` on the empty list, and on a non-empty list it
returns the arithmetic means of the four metrics, each rounded to one
decimal place, together with the entry count. -/
theorem stats_spec :
    stats [] = none ∧
    ∀ entries : List DreamEntry, entries ≠ [] →
      stats entries = some {
        avgQuality :=
          (round (((entries.map (·.sleep_quality)).sum / (entries.length : ℚ)) * 10) : ℚ) / 10,
        avgSleep :=
          (round (((entries.map (·.sleep_hours)).sum / (entries.length : ℚ)) * 10) : ℚ) / 10,
        avgCaffeine :=
          (round (((entries.map (·.caffeine_intake)).sum / (entries.length : ℚ)) * 10) : ℚ) / 10,
        avgStress :=
          (round (((entries.map (·.stress_level)).sum / (entries.length : ℚ)) * 10) : ℚ) / 10,
        total := entries.length } :=
  ⟨rfl, fun entries h => stats_eq entries h⟩

/-- The sample entry of the spec's worked example: sleep 6 h, 3 cups of
caffeine, quality 5, stress 7. -/
def exW2 : DreamEntry :=
  ⟨"e1", "u1", "Lost in a Forest", "Walking through a dark forest", 6, 3, 5,
    some "neutral", 7, 0⟩

/-- Witness for C2 at the one-entry list of the spec's worked example. -/
theorem stats_spec_witness :
    ([exW2] : List DreamEntry) ≠ [] ∧
    stats [exW2] = some {
      avgQuality :=
        (round ((([exW2].map (·.sleep_quality)).sum / (([exW2] : List DreamEntry).length : ℚ)) * 10) : ℚ) / 10,
      avgSleep :=
        (round ((([exW2].map (·.sleep_hours)).sum / (([exW2] : List DreamEntry).length : ℚ)) * 10) : ℚ) / 10,
      avgCaffeine :=
        (round ((([exW2].map (·.caffeine_intake)).sum / (([exW2] : List DreamEntry).length : ℚ)) * 10) : ℚ) / 10,
      avgStress :=
        (round ((([exW2].map (·.stress_level)).sum / (([exW2] : List DreamEntry).length : ℚ)) * 10) : ℚ) / 10,
      total := ([exW2] : List DreamEntry).length } :=
  ⟨List.cons_ne_nil _ _, stats_spec.2 [exW2] (List.cons_ne_nil _ _)⟩

/-- C3 (amended): the suggestion applies the four threshold rules, in the
source's fixed order, to the one-decimal-rounded means (the displayed
averages), concatenating the triggered messages with one space; with no
trigger it returns the single positive message, and on the empty list the
distinct start-tracking prompt. -/
theorem getSuggestion_spec :
    getSuggestion [] = msgStart ∧
    ∀ entries : List DreamEntry, entries ≠ [] →
      getSuggestion entries =
        (let mSleep :=
           toFixed1 ((entries.map (·.sleep_hours)).sum / (entries.length : ℚ))
         let mCaffeine :=
           toFixed1 ((entries.map (·.caffeine_intake)).sum / (entries.length : ℚ))
         let mStress :=
           toFixed1 ((entries.map (·.stress_level)).sum / (entries.length : ℚ))
         let mQuality :=
           toFixed1 ((entries.map (·.sleep_quality)).sum / (entries.length : ℚ))
         let msgs :=
           (if mSleep < 7 then [msgSleep] else []) ++
           (if mCaffeine > 2 then [msgCaffeine] else []) ++
           (if mStress > 6 then [msgStress] else []) ++
           (if mQuality < 6 then [msgQuality] else [])
         if msgs = [] then msgAllGood else String.intercalate " " msgs) := by
  refine ⟨rfl, fun entries h => ?_⟩
  rw [show getSuggestion entries =
        (match stats entries with
         | none => msgStart
         | some st =>
           let suggestions : List String :=
             (if st.avgSleep < 7 then [msgSleep] else []) ++
             (if st.avgCaffeine > 2 then [msgCaffeine] else []) ++
             (if st.avgStress > 6 then [msgStress] else []) ++
             (if st.avgQuality < 6 then [msgQuality] else [])
           if suggestions.length = 0 then msgAllGood
           else String.intercalate " " suggestions) from rfl,
      stats_eq entries h]
  simp only [List.length_eq_zero]

/-- Witness for C3 at the spec's worked one-entry example (all four rules
trigger there). -/
theorem getSuggestion_spec_witness :
    ([exW2] : List DreamEntry) ≠ [] ∧
    getSuggestion [exW2] =
      (let mSleep :=
         toFixed1 (([exW2].map (·.sleep_hours)).sum / (([exW2] : List DreamEntry).length : ℚ))
       let mCaffeine :=
         toFixed1 (([exW2].map (·.caffeine_intake)).sum / (([exW2] : List DreamEntry).length : ℚ))
       let mStress :=
         toFixed1 (([exW2].map (·.stress_level)).sum / (([exW2] : List DreamEntry).length : ℚ))
       let mQuality :=
         toFixed1 (([exW2].map (·.sleep_quality)).sum / (([exW2] : List DreamEntry).length : ℚ))
       let msgs :=
         (if mSleep < 7 then [msgSleep] else []) ++
         (if mCaffeine > 2 then [msgCaffeine] else []) ++
         (if mStress > 6 then [msgStress] else []) ++
         (if mQuality < 6 then [msgQuality] else [])
       if msgs = [] then msgAllGood else String.intercalate " " msgs) :=
  ⟨List.cons_ne_nil _ _, getSuggestion_spec.2 [exW2] (List.cons_ne_nil _ _)⟩

/-- Ten entries whose true mean sleep time is 6.95 hours (nine nights of 7 h
and one of 6.5 h) while every other metric is comfortably healthy. The
displayed average is `toFixed1 6.95 = 7.0`, so the source triggers no rule. -/
def exC3 : List DreamEntry :=
  [⟨"c0", "u", "t", "c", 6.5, 0, 8, none, 2, 0⟩,
   ⟨"c1", "u", "t", "c", 7, 0, 8, none, 2, 1⟩,
   ⟨"c2", "u", "t", "c", 7, 0, 8, none, 2, 2⟩,
   ⟨"c3", "u", "t", "c", 7, 0, 8, none, 2, 3⟩,
   ⟨"c4", "u", "t", "c", 7, 0, 8, none, 2, 4⟩,
   ⟨"c5", "u", "t", "c", 7, 0, 8, none, 2, 5⟩,
   ⟨"c6", "u", "t", "c", 7, 0, 8, none, 2, 6⟩,
   ⟨"c7", "u", "t", "c", 7, 0, 8, none, 2, 7⟩,
   ⟨"c8", "u", "t", "c", 7, 0, 8, none, 2, 8⟩,
   ⟨"c9", "u", "t", "c", 7, 0, 8, none, 2, 9⟩]

lemma exC3_stats : stats exC3 = some ⟨8, 7, 0, 2, 10⟩ := by
  rw [stats_eq exC3 (by simp [exC3])]
  simp only [exC3, List.map_cons, List.map_nil, List.sum_cons, List.sum_nil,
    List.length_cons, List.length_nil, Option.some.injEq, Stats.mk.injEq, toFixed1]
  norm_num [round_eq]

/-- C3 counterexample: on `exC3` the true mean sleep time is below 7 while
no other rule's condition holds on the true means, so the claim predicts the
more-sleep message (`String.intercalate " " [msgSleep]`); the code returns
the all-good message instead, because it tests the rounded mean 7.0. -/
theorem getSuggestion_mean_counterexample :
    (exC3.map (·.sleep_hours)).sum / (exC3.length : ℚ) < 7 ∧
    ¬ ((exC3.map (·.caffeine_intake)).sum / (exC3.length : ℚ) > 2) ∧
    ¬ ((exC3.map (·.stress_level)).sum / (exC3.length : ℚ) > 6) ∧
    ¬ ((exC3.map (·.sleep_quality)).sum / (exC3.length : ℚ) < 6) ∧
    getSuggestion exC3 = msgAllGood ∧
    String.intercalate " " [msgSleep] ≠ msgAllGood := by
  refine ⟨?_, ?_, ?_, ?_, ?_, ?_⟩
  · simp only [exC3, List.map_cons, List.map_nil, List.sum_cons, List.sum_nil,
      List.length_cons, List.length_nil]
    norm_num
  · simp only [exC3, List.map_cons, List.map_nil, List.sum_cons, List.sum_nil,
      List.length_cons, List.length_nil]
    norm_num
  · simp only [exC3, List.map_cons, List.map_nil, List.sum_cons, List.sum_nil,
      List.length_cons, List.length_nil]
    norm_num
  · simp only [exC3, List.map_cons, List.map_nil, List.sum_cons, List.sum_nil,
      List.length_cons, List.length_nil]
    norm_num
  · rw [show getSuggestion exC3 =
        (match stats exC3 with
         | none => msgStart
         | some st =>
           let suggestions : List String :=
             (if st.avgSleep < 7 then [msgSleep] else []) ++
             (if st.avgCaffeine > 2 then [msgCaffeine] else []) ++
             (if st.avgStress > 6 then [msgStress] else []) ++
             (if st.avgQuality < 6 then [msgQuality] else [])
           if suggestions.length = 0 then msgAllGood
           else String.intercalate " " suggestions) from rfl,
      exC3_stats]
    norm_num
  · decide

/-- One point of the trend charts: the short date label and the four sleep
metrics, as built in `chartData` (AnalyticsPage). -/
structure ChartPoint where
  date : String
  quality : ℚ
  sleep : ℚ
  caffeine : ℚ
  stress : ℚ
deriving DecidableEq, Repr

/-- English short month names, as produced by
`toLocaleDateString('en-US', { month: 'short' })`. -/
def monthAbbrev : Nat → String
  | 1 => "Jan"
  | 2 => "Feb"
  | 3 => "Mar"
  | 4 => "Apr"
  | 5 => "May"
  | 6 => "Jun"
  | 7 => "Jul"
  | 8 => "Aug"
  | 9 => "Sep"
  | 10 => "Oct"
  | 11 => "Nov"
  | 12 => "Dec"
  | _ => ""

/-- Proleptic Gregorian calendar date (year, month 1-12, day 1-31) of a day
count since the Unix epoch (standard era-based civil-date algorithm). -/
def civilFromDays (z0 : Int) : Int × Nat × Nat :=
  let z := z0 + 719468
  let era := Int.fdiv z 146097
  let doe := (z - era * 146097).toNat
  let yoe := (doe - doe / 1460 + doe / 36524 - doe / 146096) / 365
  let doy := doe - (365 * yoe + yoe / 4 - yoe / 100)
  let mp := (5 * doy + 2) / 153
  let d := doy - (153 * mp + 2) / 5 + 1
  let m := if mp < 10 then mp + 3 else mp - 9
  ((yoe : Int) + era * 400 + (if m ≤ 2 then 1 else 0), m, d)

/-- The chart's date label: month abbreviation plus day number, from the
entry's timestamp (`toLocaleDateString('en-US', {month:'short',
day:'numeric'})`, taken in UTC). -/
def dateLabel (ms : Int) : String :=
  let p := civilFromDays (Int.fdiv ms 86400000)
  monthAbbrev p.2.1 ++ " " ++ toString p.2.2

/-- The per-entry mapping step of `chartData`. -/
def mkChartPoint (e : DreamEntry) : ChartPoint :=
  { date := dateLabel e.created_at, quality := e.sleep_quality,
    sleep := e.sleep_hours, caffeine := e.caffeine_intake,
    stress := e.stress_level }

/-- The `chartData` sort comparator `(a, b) => aTime - bTime`: `a` may
precede `b` when its timestamp is not larger. -/
def chartLe (a b : DreamEntry) : Bool := decide (a.created_at ≤ b.created_at)

/-- `chartData` (AnalyticsPage): sort ascending by `created_at`, keep the
last 7 (`slice(-7)`), and map each entry to its chart point. -/
def chartData (entries : List DreamEntry) : List ChartPoint :=
  let sorted := entries.mergeSort chartLe
  (sorted.drop (sorted.length - 7)).map mkChartPoint

/-- C4: for entries with pairwise distinct timestamps, `chartData` keeps
exactly `min n 7` points, obtained by mapping the chart-point constructor
over the last (at most) 7 elements of the strictly-ascending reordering of
the input; every dropped entry is strictly older than every kept one, so the
kept window is exactly the most recent entries, in ascending time order. -/
theorem chartData_spec (entries : List DreamEntry)
    (hd : (entries.map (·.created_at)).Nodup) :
    (chartData entries).length = min entries.length 7 ∧
    ∃ s : List DreamEntry,
      s.Perm entries ∧
      s.Pairwise (fun a b => a.created_at < b.created_at) ∧
      chartData entries = (s.drop (s.length - 7)).map mkChartPoint ∧
      ∀ a ∈ s.take (s.length - 7), ∀ b ∈ s.drop (s.length - 7),
        a.created_at < b.created_at := by
  have hperm : (entries.mergeSort chartLe).Perm entries := List.mergeSort_perm _ _
  have hpair_le : (entries.mergeSort chartLe).Pairwise
      (fun a b => chartLe a b = true) :=
    List.sorted_mergeSort
      (fun a b c hab hbc => by
        simp only [chartLe, decide_eq_true_eq] at hab hbc ⊢
        omega)
      (fun a b => by
        simp only [chartLe, Bool.or_eq_true, decide_eq_true_eq]
        omega)
      entries
  have hpair_le' : (entries.mergeSort chartLe).Pairwise
      (fun a b => a.created_at ≤ b.created_at) :=
    hpair_le.imp (fun h => by simpa [chartLe] using h)
  have hnd : (entries.mergeSort chartLe).Pairwise
      (fun a b => a.created_at ≠ b.created_at) := by
    have h1 : ((entries.mergeSort chartLe).map (·.created_at)).Nodup :=
      ((hperm.map (·.created_at)).nodup_iff).mpr hd
    simpa [List.Nodup, List.pairwise_map] using h1
  have hlt : (entries.mergeSort chartLe).Pairwise
      (fun a b => a.created_at < b.created_at) :=
    (hpair_le'.and hnd).imp (fun h => lt_of_le_of_ne h.1 h.2)
  have hlen : (entries.mergeSort chartLe).length = entries.length :=
    List.length_mergeSort entries
  have hsep : ∀ a ∈ (entries.mergeSort chartLe).take
        ((entries.mergeSort chartLe).length - 7),
      ∀ b ∈ (entries.mergeSort chartLe).drop
        ((entries.mergeSort chartLe).length - 7),
      a.created_at < b.created_at := by
    have hlt' : ((entries.mergeSort chartLe).take
          ((entries.mergeSort chartLe).length - 7) ++
        (entries.mergeSort chartLe).drop
          ((entries.mergeSort chartLe).length - 7)).Pairwise
        (fun a b => a.created_at < b.created_at) := by
      rw [List.take_append_drop]
      exact hlt
    exact (List.pairwise_append.mp hlt').2.2
  refine ⟨?_, entries.mergeSort chartLe, hperm, hlt, rfl, hsep⟩
  show (((entries.mergeSort chartLe).drop
      ((entries.mergeSort chartLe).length - 7)).map mkChartPoint).length = _
  simp only [List.length_map, List.length_drop, hlen]
  omega

/-- Ten chronologically distinct entries for the C4 witness. -/
def ex10 : List DreamEntry :=
  [⟨"a0", "u", "t", "c", 7, 1, 8, none, 3, 10⟩,
   ⟨"a1", "u", "t", "c", 6, 2, 7, none, 4, 2⟩,
   ⟨"a2", "u", "t", "c", 8, 0, 9, none, 2, 7⟩,
   ⟨"a3", "u", "t", "c", 5, 3, 5, none, 6, 1⟩,
   ⟨"a4", "u", "t", "c", 7.5, 1, 8, none, 3, 9⟩,
   ⟨"a5", "u", "t", "c", 6.5, 2, 6, none, 5, 4⟩,
   ⟨"a6", "u", "t", "c", 8.5, 0, 9, none, 1, 6⟩,
   ⟨"a7", "u", "t", "c", 7, 1, 7, none, 4, 3⟩,
   ⟨"a8", "u", "t", "c", 6, 2, 6, none, 5, 8⟩,
   ⟨"a9", "u", "t", "c", 9, 0, 10, none, 1, 5⟩]

/-- Witness for C4: the ten timestamps are pairwise distinct and the chart
keeps exactly `min 10 7 = 7` points. -/
theorem chartData_spec_witness :
    (ex10.map (·.created_at)).Nodup ∧
    (chartData ex10).length = min ex10.length 7 :=
  ⟨by decide, (chartData_spec ex10 (by decide)).1⟩

/-- JSON documents, as produced by `JSON.stringify` and consumed by
`JSON.parse`: the export round trip is stated at this document level
(whitespace/pretty-printing does not affect the parsed value). -/
inductive Json where
  | null
  | str (s : String)
  | num (q : ℚ)
  | arr (elems : List Json)
  | obj (fields : List (String × Json))

def Json.getField (j : Json) (key : String) : Option Json :=
  match j with
  | .obj fields => fields.lookup key
  | _ => none

def Json.asStr : Json → Option String
  | .str s => some s
  | _ => none

def Json.asNum : Json → Option ℚ
  | .num q => some q
  | _ => none

def Json.asNullableStr : Json → Option (Option String)
  | .null => some none
  | .str s => some (some s)
  | _ => none

def Json.asInt : Json → Option Int
  | .num q => if q.den = 1 then some q.num else none
  | _ => none

/-- `JSON.stringify`'s rendering of one DreamEntry row: every field, in the
row's property order; a `null` mood serializes to JSON null. -/
def entryToJson (e : DreamEntry) : Json :=
  .obj [("id", .str e.id),
        ("user_id", .str e.user_id),
        ("title", .str e.title),
        ("content", .str e.content),
        ("sleep_hours", .num e.sleep_hours),
        ("caffeine_intake", .num e.caffeine_intake),
        ("sleep_quality", .num e.sleep_quality),
        ("mood", match e.mood with | none => Json.null | some m => Json.str m),
        ("stress_level", .num e.stress_level),
        ("created_at", .num (e.created_at : ℚ))]

/-- Parse one exported object back into a DreamEntry (the `JSON.parse` side
of the round trip). -/
def jsonToEntry (j : Json) : Option DreamEntry := do
  let id ← (j.getField "id").bind Json.asStr
  let uid ← (j.getField "user_id").bind Json.asStr
  let title ← (j.getField "title").bind Json.asStr
  let content ← (j.getField "content").bind Json.asStr
  let sh ← (j.getField "sleep_hours").bind Json.asNum
  let ci ← (j.getField "caffeine_intake").bind Json.asNum
  let sq ← (j.getField "sleep_quality").bind Json.asNum
  let mood ← (j.getField "mood").bind Json.asNullableStr
  let sl ← (j.getField "stress_level").bind Json.asNum
  let ca ← (j.getField "created_at").bind Json.asInt
  pure ⟨id, uid, title, content, sh, ci, sq, mood, sl, ca⟩

def elemsToEntries : List Json → Option (List DreamEntry)
  | [] => some []
  | j :: rest =>
    match jsonToEntry j, elemsToEntries rest with
    | some e, some es => some (e :: es)
    | _, _ => none

/-- Parse an exported document back into the entry list. -/
def jsonToEntries (j : Json) : Option (List DreamEntry) :=
  match j with
  | .arr elems => elemsToEntries elems
  | _ => none

/-- `handleExportData` (ProfilePage), after the session check: an empty
select-all result aborts with an error notification and no file; otherwise
the download is the dated backup file holding the serialized entry array. -/
def handleExportData (entries : List DreamEntry) (todayIso : String) :
    Except String (String × Json) :=
  if entries.length = 0 then .error "No data to export"
  else .ok ("dreamtracker-backup-" ++ todayIso ++ ".json",
    Json.arr (entries.map entryToJson))

lemma jsonToEntry_entryToJson (e : DreamEntry) :
    jsonToEntry (entryToJson e) = some e := by
  obtain ⟨i, u, t, c, sh, ci, sq, mo, sl, ca⟩ := e
  cases mo <;> rfl

lemma elemsToEntries_map (l : List DreamEntry) :
    elemsToEntries (l.map entryToJson) = some l := by
  induction l with
  | nil => rfl
  | cons e t ih =>
    simp [elemsToEntries, jsonToEntry_entryToJson, ih]

/-- C7: for a non-empty select-all result, the export produces the file
`dreamtracker-backup-<ISO-date>.json` holding exactly the serialized entry
array, and parsing that document yields a list field-for-field equal to the
select-all result. -/
theorem handleExportData_roundTrip (entries : List DreamEntry)
    (todayIso : String) (h : entries ≠ []) :
    handleExportData entries todayIso =
      Except.ok ("dreamtracker-backup-" ++ todayIso ++ ".json",
        Json.arr (entries.map entryToJson)) ∧
    jsonToEntries (Json.arr (entries.map entryToJson)) = some entries := by
  have hlen : entries.length ≠ 0 := fun hl => h (List.length_eq_zero.mp hl)
  exact ⟨by simp [handleExportData, hlen],
    by simp [jsonToEntries, elemsToEntries_map]⟩

/-- Witness for C7 on a one-entry store. -/
theorem handleExportData_roundTrip_witness :
    ([exW2] : List DreamEntry) ≠ [] ∧
    (handleExportData [exW2] "2026-10-11" =
      Except.ok ("dreamtracker-backup-" ++ "2026-10-11" ++ ".json",
        Json.arr ([exW2].map entryToJson)) ∧
     jsonToEntries (Json.arr ([exW2].map entryToJson)) = some [exW2]) :=
  ⟨List.cons_ne_nil _ _,
   handleExportData_roundTrip [exW2] "2026-10-11" (List.cons_ne_nil _ _)⟩

/-- C9: with an empty stored entry list the export aborts with the
"No data to export" error and produces no file. -/
theorem handleExportData_empty (todayIso : String) :
    handleExportData [] todayIso = Except.error "No data to export" := rfl

/-- The insert payload built by `handleSaveEntry` (JournalPage). -/
structure NewEntryPayload where
  user_id : String
  title : String
  content : String
  sleep_hours : ℚ
  caffeine_intake : ℚ
  sleep_quality : ℚ
  mood : Option String
  stress_level : ℚ
deriving DecidableEq, Repr

/-- Outcome of a save-entry submission: a client-side validation abort, an
absent-session abort, or the issued insert request. -/
inductive SaveOutcome where
  | validationError (msg : String)
  | authError (msg : String)
  | insertRequest (entry : NewEntryPayload)
deriving DecidableEq, Repr

/-- `handleSaveEntry` (JournalPage): an empty title or content aborts with
an error notification before any network call or state change. -/
def handleSaveEntry (user : Option String) (dreamTitle dreamContent : String)
    (sleepHours caffeineIntake sleepQuality stressLevel : ℚ)
    (mood : Option String) : SaveOutcome :=
  if dreamTitle = "" ∨ dreamContent = "" then
    .validationError "Please fill in dream title and content"
  else
    match user with
    | none => .authError "You must be logged in to save entries"
    | some uid =>
      .insertRequest ⟨uid, dreamTitle, dreamContent, sleepHours,
        caffeineIntake, sleepQuality, mood, stressLevel⟩

/-- Outcome of a login/signup submission. -/
inductive LoginAction where
  | validationError (msg : String)
  | signUpRequest (email password name : String)
  | signInRequest (email password : String)
deriving DecidableEq, Repr

/-- `handleSubmit` (LoginPage): missing required fields or a short password
abort with an error notification before any auth-service call. -/
def handleSubmit (isSignup : Bool) (email password name : String) :
    LoginAction :=
  if email = "" ∨ password = "" ∨ (isSignup = true ∧ name = "") then
    .validationError "Please fill in all fields"
  else if password.length < 6 then
    .validationError "Password must be at least 6 characters"
  else if isSignup then .signUpRequest email password name
  else .signInRequest email password

/-- C8: a save-entry submission missing title or content, and a login/signup
submission missing a required field or with a password below 6 characters,
each return a validation-error outcome — no request is issued and no state
is mutated. -/
theorem validation_blocks_submission
    (user : Option String) (dreamTitle dreamContent : String)
    (sleepHours caffeineIntake sleepQuality stressLevel : ℚ)
    (mood : Option String)
    (isSignup : Bool) (email password name : String) :
    (dreamTitle = "" ∨ dreamContent = "" →
      handleSaveEntry user dreamTitle dreamContent sleepHours caffeineIntake
          sleepQuality stressLevel mood =
        SaveOutcome.validationError "Please fill in dream title and content") ∧
    ((email = "" ∨ password = "" ∨ (isSignup = true ∧ name = "") ∨
        password.length < 6) →
      ∃ msg, handleSubmit isSignup email password name =
        LoginAction.validationError msg) := by
  constructor
  · intro h
    unfold handleSaveEntry
    rw [if_pos h]
  · intro h
    by_cases h1 : email = "" ∨ password = "" ∨ (isSignup = true ∧ name = "")
    · refine ⟨"Please fill in all fields", ?_⟩
      unfold handleSubmit
      rw [if_pos h1]
    · have h2 : password.length < 6 := by tauto
      refine ⟨"Password must be at least 6 characters", ?_⟩
      unfold handleSubmit
      rw [if_neg h1, if_pos h2]

/-- Witness for C8: an empty dream title aborts the save, and a 3-character
password aborts the login. -/
theorem validation_blocks_submission_witness :
    handleSaveEntry none "" "A dream" 7 0 5 5 none =
      SaveOutcome.validationError "Please fill in dream title and content" ∧
    ∃ msg, handleSubmit false "a@b.c" "abc" "" =
      LoginAction.validationError msg :=
  ⟨(validation_blocks_submission none "" "A dream" 7 0 5 5 none
      false "a@b.c" "abc" "").1 (Or.inl rfl),
   (validation_blocks_submission none "" "A dream" 7 0 5 5 none
      false "a@b.c" "abc" "").2 (Or.inr (Or.inr (Or.inr (by decide))))⟩

/-- Model of JavaScript `String.prototype.split` with a one-character
separator, on character lists. -/
def jsSplit (sep : Char) : List Char → List (List Char)
  | [] => [[]]
  | c :: cs =>
    if c = sep then [] :: jsSplit sep cs
    else
      match jsSplit sep cs with
      | [] => [[c]]
      | h :: t => (c :: h) :: t

/-- The display-name choice of `loadUserProfile` (App.tsx):
`profile?.name || email.split('@')[0]`. -/
def loadUserProfileName (profileName : Option String) (email : String) :
    String :=
  match profileName with
  | some n =>
    if n = "" then String.mk ((jsSplit '@' email.data).headD []) else n
  | none => String.mk ((jsSplit '@' email.data).headD [])

/-- The same display-name choice in the login branch of `handleSubmit`
(LoginPage): `profile?.name || email.split('@')[0]`. -/
def loginDisplayName (profileName : Option String) (email : String) :
    String :=
  match profileName with
  | some n =>
    if n = "" then String.mk ((jsSplit '@' email.data).headD []) else n
  | none => String.mk ((jsSplit '@' email.data).headD [])

lemma jsSplit_ne_nil (sep : Char) (l : List Char) : jsSplit sep l ≠ [] := by
  cases l with
  | nil => simp [jsSplit]
  | cons c cs =>
    simp only [jsSplit]
    split
    · simp
    · split <;> simp

lemma jsSplit_headD (sep : Char) (l : List Char) :
    (jsSplit sep l).headD [] = l.takeWhile (fun c => c != sep) := by
  induction l with
  | nil => rfl
  | cons c cs ih =>
    by_cases h : c = sep
    · subst h
      simp [jsSplit, List.takeWhile_cons]
    · have hne := jsSplit_ne_nil sep cs
      rcases hcs : jsSplit sep cs with _ | ⟨hh, tt⟩
      · exact absurd hcs hne
      · have hh_eq : hh = cs.takeWhile (fun c => c != sep) := by
          have h2 := ih
          rw [hcs] at h2
          simpa using h2
        have hcne : (c != sep) = true := by simp [h]
        simp [jsSplit, if_neg h, hcs, List.takeWhile_cons, hcne, hh_eq]

/-- C10: with no stored profile name, both the session-restore path and the
login path display the portion of the email address before the first '@'
(the whole address if it has none). -/
theorem displayName_email_fallback (email : String) :
    loadUserProfileName none email =
      String.mk (email.data.takeWhile (fun c => c != '@')) ∧
    loginDisplayName none email =
      String.mk (email.data.takeWhile (fun c => c != '@')) := by
  constructor
  · show String.mk ((jsSplit '@' email.data).headD []) = _
    rw [jsSplit_headD]
  · show String.mk ((jsSplit '@' email.data).headD []) = _
    rw [jsSplit_headD]
